import Mathlib

/-!
Verification development for the commercial-register scraper.

Shallow embedding of the core data model and operations:
* `Session.make_limited_request` (src/source/service.py)
* `LegalEntityInformation` and the registry-type handling of the search
  input reader (src/source/entity.py, src/source/file.py)
* the capital-text pattern of `LegalEntityInformationParser.__set_capital`
  (src/source/entity.py)
* the documents tree, `DocumentsTreeElement.create_child` and
  `ShareholderLists.__extract` (src/source/documents.py)
* `CourtListParser`, `CourtList` and `CourtList.get_closest_from_name`
  (src/comreg/court.py)
* the per-record search-policy escalation of `main`
  (src/source/__main__.py)

Machine reals (Python floats for clock values and parsed amounts) are
modelled as rationals; Python dicts are modelled as insertion-ordered
association lists; regular expressions are modelled by hand-rolled
matchers that follow the backtracking order of the Python `re` engine on
the concrete patterns appearing in the source.
-/

/-- Python `\s` on ASCII text: space, tab, newline, carriage return,
vertical tab and form feed. -/
def isPySpace (c : Char) : Bool :=
  c = ' ' || c = '\t' || c = '\n' || c = '\r' || c = '\x0b' || c = '\x0c'

/-- Python `str.strip()`: remove leading and trailing whitespace. -/
def pyStrip (s : String) : String :=
  ⟨((s.data.dropWhile isPySpace).reverse.dropWhile isPySpace).reverse⟩

/-- Python `str.startswith`. -/
def pyStartsWith (s pre : String) : Bool :=
  pre.data.isPrefixOf s.data

/-- Numeric value of a list of decimal digit characters. -/
def natOfDigits (ds : List Char) : Nat :=
  ds.foldl (fun n c => 10 * n + (c.toNat - '0'.toNat)) 0

/-!
## Rate-limited session (src/source/service.py)

`time()` values and sleep amounts are modelled as rationals.  A call to
`make_limited_request` receives the clock value `current` at the moment
of the call; during the call the clock advances exactly by the amount
slept, which is how the two `time()` re-reads in the source are
reflected.
-/

structure Session where
  identifier : Option String
  delay : Int
  request_limit : Int
  limit_interval : Int
  delay_start : ℚ
  limit_start : ℚ
  limited_requests : Int

/-- `Session.__init__`: raises `ValueError` when a positive request limit
comes with a negative interval; all window bookkeeping starts at -1 / 0. -/
def Session.make (identifier : Option String) (delay request_limit limit_interval : Int) :
    Except String Session :=
  if request_limit > 0 ∧ limit_interval < 0 then
    .error "ValueError"
  else
    .ok ⟨identifier, delay, request_limit, limit_interval, -1, -1, 0⟩

/-- Result of one `make_limited_request` call: the updated session, the
time slept for the window rate limit, and the time slept for the simple
inter-request delay. -/
structure RequestStep where
  session : Session
  limitSleep : ℚ
  delaySleep : ℚ

/-- `Session.make_limited_request`, with the clock passed explicitly.
The first block enforces the request-count ceiling per window, the second
the fixed delay since the previous request. -/
def Session.make_limited_request (s : Session) (current : ℚ) : RequestStep :=
  let step1 : Session × ℚ × ℚ :=
    if s.request_limit > 0 ∧ s.limit_interval > 0 then
      let s := if s.limited_requests = 0 then { s with limit_start := current } else s
      let remaining : ℚ := (s.limit_interval : ℚ) - current + s.limit_start
      if 0 < remaining then
        if s.request_limit ≤ s.limited_requests then
          ({ s with limited_requests := 1, limit_start := current + remaining },
            remaining, current + remaining)
        else
          ({ s with limited_requests := s.limited_requests + 1 }, 0, current)
      else
        ({ s with limited_requests := s.limited_requests + 1 }, 0, current)
    else (s, 0, current)
  let s1 := step1.1
  let limitSleep := step1.2.1
  let now := step1.2.2
  if 0 < s1.delay then
    let remaining : ℚ := (s1.delay : ℚ) - now + s1.delay_start
    if 0 < remaining then
      ⟨{ s1 with delay_start := now + remaining }, limitSleep, remaining⟩
    else
      ⟨{ s1 with delay_start := now }, limitSleep, 0⟩
  else ⟨s1, limitSleep, 0⟩

/-!
## Legal entity information (src/source/entity.py, src/source/file.py)
-/

/-- The five known registry type codes (src/source/entity.py line 22). -/
def REGISTRY_TYPES : List String := ["HRA", "HRB", "GnR", "PR", "VR"]

/-- `LegalEntityInformation` record.  The Python field `structure` is
spelled `legal_structure` here because `structure` is a Lean keyword;
the capital amount (a Python float parsed from a decimal string) is a
rational. -/
structure LegalEntityInformation where
  name : Option String
  registry_court : Option String
  registry_type : Option String
  registry_id : Option String
  legal_structure : Option String
  capital : Option ℚ
  capital_currency : Option String
  entry : Option String
  deletion : Option String
  balance : Option (List String)
  address : Option String
  post_code : Option String
  city : Option String
deriving DecidableEq

/-- `LegalEntityInformation.__init__`: raises `ValueError` when a
registry type is given that is not one of the five known codes. -/
def LegalEntityInformation.make (name registry_court registry_type registry_id
    legal_structure : Option String) (capital : Option ℚ)
    (capital_currency entry deletion : Option String) (balance : Option (List String))
    (address post_code city : Option String) : Except String LegalEntityInformation :=
  match registry_type with
  | some t =>
    if t ∈ REGISTRY_TYPES then
      .ok ⟨name, registry_court, some t, registry_id, legal_structure, capital,
        capital_currency, entry, deletion, balance, address, post_code, city⟩
    else
      .error "Unknown registry type"
  | none =>
    .ok ⟨name, registry_court, none, registry_id, legal_structure, capital,
      capital_currency, entry, deletion, balance, address, post_code, city⟩

/-- Registry-type handling of `SearchInputDataFileReader.__next__`
(src/source/file.py lines 122-127) on the already-stripped cell value:
a value that is not one of the known codes is replaced by `None`, and a
diagnostic is logged unless the value is the missing-value marker
`"-9"`.  The second component is the list of log messages produced. -/
def readRegistryType (registry_type name : String) : Option String × List String :=
  if registry_type ∈ REGISTRY_TYPES then
    (some registry_type, [])
  else if registry_type = "-9" then
    (none, [])
  else
    (none, ["Omitting invalid registry type " ++ registry_type ++
      " for search record " ++ name])

/-!
## Capital text pattern (src/source/entity.py `__set_capital`)

The pattern is
`^\s*((?:(?:\d{1,3})(?:\.\d{3})+|\d+)(?:,\d{1,2})?)\s*(EUR|DEM|€)?\s*$`.
Because the pieces of the pattern draw from disjoint character classes
(digits and separators, whitespace, currency letters), the backtracking
search of the Python engine is equivalent to the deterministic
longest-run parser below; the comments note the equivalences.
-/

/-- One or more `\.\d{3}` groups.  Each group is a dot followed by
exactly three digits, and a digit directly after a group would make the
whole pattern fail (no continuation of the pattern can consume it), so
it is rejected here. -/
def parseDotGroups : List Char → Option (List Char × List Char)
  | '.' :: d1 :: d2 :: d3 :: rest =>
    if d1.isDigit && d2.isDigit && d3.isDigit then
      match rest with
      | [] => some ([d1, d2, d3], [])
      | c :: _ =>
        if c.isDigit then none
        else if c = '.' then
          match parseDotGroups rest with
          | some (ds, r) => some ([d1, d2, d3] ++ ds, r)
          | none => none
        else some ([d1, d2, d3], rest)
    else none
  | _ => none

/-- The optional `,\d{1,2}` fraction followed by the numeric value of the
whole amount group after the source's separator normalisation (drop the
thousands dots, decimal comma becomes a period).  A comma followed by
zero or more than two digits makes the whole pattern fail. -/
def parseComma (intDigits : List Char) : List Char → Option (ℚ × List Char)
  | ',' :: rest =>
    let fs := rest.takeWhile Char.isDigit
    let rest' := rest.dropWhile Char.isDigit
    if fs.length = 1 ∨ fs.length = 2 then
      some ((natOfDigits intDigits : ℚ) + (natOfDigits fs : ℚ) / (10 ^ fs.length : ℚ), rest')
    else none
  | cs => some ((natOfDigits intDigits : ℚ), cs)

/-- The amount group `(?:(?:\d{1,3})(?:\.\d{3})+|\d+)(?:,\d{1,2})?`:
value and unconsumed remainder.  The leading digit run is maximal, which
agrees with the regex because every continuation of the pattern rejects
a digit. -/
def parseNumber (cs : List Char) : Option (ℚ × List Char) :=
  let ds := cs.takeWhile Char.isDigit
  let rest := cs.dropWhile Char.isDigit
  if ds.isEmpty then none
  else
    match rest with
    | '.' :: _ =>
      if ds.length ≤ 3 then
        match parseDotGroups rest with
        | some (gds, rest') => parseComma (ds ++ gds) rest'
        | none => parseComma ds rest
      else parseComma ds rest
    | _ => parseComma ds rest

/-- The currency alternative `(EUR|DEM|€)`. -/
def stripCurrency : List Char → Option (String × List Char)
  | 'E' :: 'U' :: 'R' :: rest => some ("EUR", rest)
  | 'D' :: 'E' :: 'M' :: rest => some ("DEM", rest)
  | '€' :: rest => some ("€", rest)
  | _ => none

/-- `LegalEntityInformationParser.__set_capital`: on a match, the capital
amount and the captured currency group (null when no currency suffix is
present). -/
def parseCapital (s : String) : Option (ℚ × Option String) :=
  let cs := s.data.dropWhile isPySpace
  match parseNumber cs with
  | none => none
  | some (v, rest) =>
    let rest2 := rest.dropWhile isPySpace
    match rest2 with
    | [] => some (v, none)
    | _ =>
      match stripCurrency rest2 with
      | some (cur, rest3) =>
        if (rest3.dropWhile isPySpace).isEmpty then some (v, some cur) else none
      | none => none

/-!
## Documents tree (src/source/documents.py)

`DocumentsTreeElement` values form a tree whose nodes carry either a
children list (directories) or no children list (files).  For the
date-extraction walk the tree is modelled as an inductive type; for
`create_child`, whose contract involves the parent back-reference and
in-place mutation, the nodes are modelled arena-style (a flat node list
with parent/child indices), as suggested by the design notes.
-/

inductive DocTree where
  | file (name : String)
  | dir (name : String) (children : List DocTree)

/-- The date pattern of `ShareholderLists.__extract`:
`(\d{1,2}.\d{1,2}.\d{2,4})`, where each `.` is the regex any-character
(not a literal dot).  `tryDatePattern l1 l2 l3` matches
`\d{l1} . \d{l2} . \d{l3}` at the head of the input and returns the
matched characters. -/
def takeExactDigits : Nat → List Char → Option (List Char × List Char)
  | 0, cs => some ([], cs)
  | _ + 1, [] => none
  | n + 1, c :: cs =>
    if c.isDigit then
      match takeExactDigits n cs with
      | some (ds, r) => some (c :: ds, r)
      | none => none
    else none

/-- The regex `.` token: any character except a newline. -/
def takeAnyChar : List Char → Option (Char × List Char)
  | [] => none
  | c :: cs => if c = '\n' then none else some (c, cs)

def tryDatePattern (l1 l2 l3 : Nat) (cs : List Char) : Option (List Char) :=
  match takeExactDigits l1 cs with
  | none => none
  | some (d1, r1) =>
    match takeAnyChar r1 with
    | none => none
    | some (c1, r2) =>
      match takeExactDigits l2 r2 with
      | none => none
      | some (d2, r3) =>
        match takeAnyChar r3 with
        | none => none
        | some (c2, r4) =>
          match takeExactDigits l3 r4 with
          | none => none
          | some (d3, _) => some (d1 ++ [c1] ++ d2 ++ [c2] ++ d3)

/-- All quantifier splits of `\d{1,2}.\d{1,2}.\d{2,4}` in the Python
engine's backtracking order (greedy: longer first, leftmost quantifier
outermost). -/
def datePatternSplits : List (Nat × Nat × Nat) :=
  [(2, 2, 4), (2, 2, 3), (2, 2, 2), (2, 1, 4), (2, 1, 3), (2, 1, 2),
   (1, 2, 4), (1, 2, 3), (1, 2, 2), (1, 1, 4), (1, 1, 3), (1, 1, 2)]

def matchDateAt (cs : List Char) : Option (List Char) :=
  datePatternSplits.findSome? fun t => tryDatePattern t.1 t.2.1 t.2.2 cs

def searchDateAux : List Char → Option String
  | [] => none
  | c :: cs =>
    match matchDateAt (c :: cs) with
    | some m => some ⟨m⟩
    | none => searchDateAux cs

/-- `re.search(r"(\d{1,2}.\d{1,2}.\d{2,4})", s)`: the leftmost match. -/
def searchDate (s : String) : Option String :=
  searchDateAux s.data

/-- The marker folder label used by `ShareholderLists.__extract`. -/
def GESELLSCHAFTER_MARKER : String := "Liste der Gesellschafter"

/-- `ShareholderLists.__extract`: depth-first, left-to-right walk.  A
directory is entered with the flag set once its name equals the marker;
a file contributes a date (or `None` for an unmatched date pattern) only
when the flag is set and its name starts with the marker. -/
def extractDates : List DocTree → Bool → List (Option String)
  | [], _ => []
  | .dir n cs :: rest, flag =>
    extractDates cs (flag || (n == GESELLSCHAFTER_MARKER)) ++ extractDates rest flag
  | .file n :: rest, flag =>
    (if flag then
      if pyStartsWith n GESELLSCHAFTER_MARKER then
        match searchDate n with
        | some d => [some d]
        | none => [(none : Option String)]
      else []
    else []) ++ extractDates rest flag

/-- `ShareholderLists.__init__` computes `self.dates` from the root's
children; a root without a children list makes the Python walk fail
(iteration over `None`), modelled as `none`. -/
def shareholder_lists_dates : DocTree → Option (List (Option String))
  | .dir _ cs => some (extractDates cs false)
  | .file _ => none

/-!
## `DocumentsTreeElement.create_child`, arena model

Nodes live in a flat list; `parent` and the entries of `children` are
indices into that list.  `none` children marks a non-directory element.
-/

structure TreeNode where
  name : Option String
  parent : Option Nat
  children : Option (List Nat)
deriving DecidableEq

/-- `DocumentsTreeElement.create_child`: returns the post-call arena and
either the index of the created child or the `ValueError` message.  The
freshly constructed element of the error path is unreachable garbage and
is not retained. -/
def create_child (arena : List TreeNode) (self : Nat) (name : Option String)
    (as_directory : Bool) : List TreeNode × Except String Nat :=
  match arena[self]? with
  | none => (arena, .error "dangling reference")
  | some node =>
    match node.children with
    | some cs =>
      let child : TreeNode :=
        { name := name, parent := some self,
          children := if as_directory then some [] else none }
      ((arena.set self { node with children := some (cs ++ [arena.length]) }) ++ [child],
        .ok arena.length)
    | none => (arena, .error "Cannot create a child for an element that is not a directory")

/-!
## Registry courts (src/comreg/court.py)
-/

/-- A parsed registry court.  Courts appended by the parser always carry
both an identifier and a display name (see the parser invariant below). -/
structure Court where
  identifier : String
  name : String
deriving DecidableEq

/-- A court under construction inside the parser: `Court(identifier)`
with the name still unset. -/
structure CourtDraft where
  identifier : String
  name : Option String
deriving DecidableEq

/-- The linear token stream handed to the markup extractors: open tags
with their attribute list, text nodes, close tags. -/
inductive MarkupToken where
  | startTag (tag : String) (attrs : List (String × String))
  | text (data : String)
  | endTag (tag : String)

/-- `re.search(r"\A[A-Z]\d{4}\Z", s)` together with the truthiness check
on the attribute value: one ASCII uppercase letter followed by exactly
four digits. -/
def isCourtCode (s : String) : Bool :=
  match s.data with
  | [c0, c1, c2, c3, c4] =>
    decide ('A' ≤ c0 ∧ c0 ≤ 'Z') && c1.isDigit && c2.isDigit && c3.isDigit && c4.isDigit
  | _ => false

/-- The last `value` attribute of an option tag (the attribute loop in
`handle_starttag` keeps overwriting). -/
def lastValueAttr (attrs : List (String × String)) : Option String :=
  attrs.foldl (fun acc p => if p.1 = "value" then some p.2 else acc) none

def COURT_STATE_VOID : Nat := 0
def COURT_STATE_AWAIT_OPTION : Nat := 1
def COURT_STATE_AWAIT_NAME : Nat := 2
def COURT_STATE_NAME : Nat := 3

structure CourtParseState where
  state : Nat
  result : List Court
  court : Option CourtDraft
deriving DecidableEq

/-- One `CourtListParser` event (`handle_starttag` / `handle_data` /
`handle_endtag`).  The two `| none => ...` fall-through branches are
unreachable: the parser is in `AWAIT_NAME` or appends in `NAME` only
while a draft court exists (`courtListStep_draft_invariant` below). -/
def courtListStep (st : CourtParseState) (tok : MarkupToken) : CourtParseState :=
  match tok with
  | .startTag tag attrs =>
    if tag = "select" then
      if attrs.any fun p => p.1 = "name" && p.2 = "registergericht" then
        { st with state := COURT_STATE_AWAIT_OPTION }
      else st
    else if tag = "option" then
      if st.state ≠ COURT_STATE_AWAIT_OPTION then st
      else
        match lastValueAttr attrs with
        | some id =>
          if id ≠ "" && isCourtCode id then
            { st with court := some ⟨id, none⟩, state := COURT_STATE_AWAIT_NAME }
          else { st with state := COURT_STATE_NAME }
        | none => { st with state := COURT_STATE_NAME }
    else st
  | .text data =>
    if st.state = COURT_STATE_AWAIT_NAME then
      match st.court with
      | some c =>
        { st with
          court := some ⟨c.identifier, some (pyStrip data)⟩
          state := COURT_STATE_NAME }
      | none => { st with state := COURT_STATE_NAME }
    else st
  | .endTag tag =>
    if tag = "select" then
      if st.state = COURT_STATE_AWAIT_OPTION then { st with state := COURT_STATE_VOID }
      else st
    else if tag = "option" then
      if st.state = COURT_STATE_NAME then
        match st.court with
        | some ⟨id, some nm⟩ =>
          { state := COURT_STATE_AWAIT_OPTION, result := st.result ++ [⟨id, nm⟩],
            court := none }
        | some ⟨_, none⟩ => { st with state := COURT_STATE_AWAIT_OPTION, court := none }
        | none => { st with state := COURT_STATE_AWAIT_OPTION }
      else st
    else st

def courtParseInit : CourtParseState := ⟨COURT_STATE_VOID, [], none⟩

/-- Feeding a whole token stream to a fresh `CourtListParser`. -/
def runCourtListParser (toks : List MarkupToken) : CourtParseState :=
  toks.foldl courtListStep courtParseInit

/-!
### Python dict as insertion-ordered association list
-/

def pyDictInsert (m : List (String × Court)) (k : String) (v : Court) :
    List (String × Court) :=
  match m with
  | [] => [(k, v)]
  | (k', v') :: rest => if k' = k then (k', v) :: rest else (k', v') :: pyDictInsert rest k v

def pyDict (l : List (String × Court)) : List (String × Court) :=
  l.foldl (fun m p => pyDictInsert m p.1 p.2) []

/-- `CourtList.__init__`: the two lookup indices, keyed by name and by
identifier. -/
structure CourtList where
  name_map : List (String × Court)
  identifier_map : List (String × Court)
deriving DecidableEq

def CourtList.make (court_list : List Court) : CourtList :=
  ⟨pyDict (court_list.map fun c => (c.name, c)),
   pyDict (court_list.map fun c => (c.identifier, c))⟩

/-!
### Closest-name lookup

`get_closest_from_name` first scans for a court whose name contains the
given name in parentheses (the source interpolates the name into the
pattern `.*\(name\).*`; for names free of regex metacharacters this is
literal substring containment, which is what the model uses), then falls
back to the best `difflib.SequenceMatcher` similarity with a strictly
positive start value.

The similarity is the stdlib algorithm with no junk: `b2j` is built
without an `isjunk` argument and the `autojunk` heuristic only fires for
second sequences of 200 or more characters, longer than any registry
court name.
-/

/-- Length of the common run at the heads of two character lists. -/
def runLen : List Char → List Char → Nat
  | x :: xs, y :: ys => if x = y then runLen xs ys + 1 else 0
  | _, _ => 0

/-- `SequenceMatcher.find_longest_match` without junk: of all maximal
common runs, the one starting earliest in `a`, then earliest in `b`
(realised here by a lexicographic scan improving only on strictly longer
runs). -/
def findLongestMatch (a b : List Char) : Nat × Nat × Nat :=
  (List.range a.length).foldl
    (fun best i =>
      (List.range b.length).foldl
        (fun best j =>
          let k := runLen (a.drop i) (b.drop j)
          if best.2.2 < k then (i, j, k) else best)
        best)
    (0, 0, 0)

/-- Total size of all matching blocks (`get_matching_blocks`): recurse on
both sides of the longest match.  The fuel argument dominates the sum of
the list lengths, which shrinks at every recursive call. -/
def matchingTotal : Nat → List Char → List Char → Nat
  | 0, _, _ => 0
  | fuel + 1, a, b =>
    let m := findLongestMatch a b
    if m.2.2 = 0 then 0
    else
      matchingTotal fuel (a.take m.1) (b.take m.2.1) + m.2.2 +
        matchingTotal fuel (a.drop (m.1 + m.2.2)) (b.drop (m.2.1 + m.2.2))

/-- `SequenceMatcher(None, a, b).ratio()`: `2*M / (len(a)+len(b))`, and 1
for two empty sequences (`_calculate_ratio`). -/
def sequenceSimilarity (a b : String) : ℚ :=
  let la := a.data.length
  let lb := b.data.length
  if la + lb = 0 then 1
  else 2 * (matchingTotal (la + lb + 1) a.data b.data : ℚ) / ((la + lb : Nat) : ℚ)

/-- Does `cs` contain `pat` as a contiguous subsequence? -/
def containsSeq (pat : List Char) : List Char → Bool
  | [] => pat.isEmpty
  | c :: cs => pat.isPrefixOf (c :: cs) || containsSeq pat cs

/-- The first loop of `get_closest_from_name`: does the court name
contain `"(" ++ name ++ ")"`? -/
def parenContains (name courtName : String) : Bool :=
  containsSeq ("(".data ++ name.data ++ ")".data) courtName.data

/-- One step of the second loop: keep the court with the strictly best
similarity seen so far. -/
def bestSimilarityStep (name : String) (acc : Option Court × ℚ) (p : String × Court) :
    Option Court × ℚ :=
  let r := sequenceSimilarity name p.1
  if acc.2 < r then (some p.2, r) else acc

/-- `CourtList.get_closest_from_name`. -/
def CourtList.get_closest_from_name (cl : CourtList) (name : Option String) : Option Court :=
  match name with
  | none => none
  | some nm =>
    match cl.name_map.find? (fun p => parenContains nm p.1) with
    | some p => some p.2
    | none => (cl.name_map.foldl (bestSimilarityStep nm) (none, 0)).1

/-- The largest similarity of `nm` against the keys of an association
list (0 for the empty list). -/
def maxSimilarity (nm : String) (l : List (String × Court)) : ℚ :=
  (l.map fun p => sequenceSimilarity nm p.1).foldr max 0

/-!
## Search orchestrator (src/source/__main__.py `main`, per-record body)

The search request helper and the result entries with their content
flags come from the `search` module, which is not part of the checked
sources.  Modelled from the spec: a `SearchResultEntry` carries an index,
a name and per-content-type boolean flags ("entity-info present",
"documents present"); `record_has_content` reads one flag.  Performing a
search request for a given policy stage is abstracted by an oracle from
the stage to the optional entry list (requests differ per stage only in
the parameters derived from that stage), a detail fetch and a documents
fetch by oracles from the entry to an optional result.
-/

structure SearchResultEntry where
  index : Nat
  name : String
  hasLegalEntityInformation : Bool
  hasDocuments : Bool
deriving DecidableEq

def SEARCH_POLICY_STRICT : Nat := 1
def SEARCH_POLICY_NAME : Nat := 2
def SEARCH_POLICY_KEYWORDS : Nat := 3

/-- `main` falls back to the strict policy when the configured value is
not one of the three policies (src/source/__main__.py lines 196-204). -/
def validateSearchPolicy (p : Nat) : Nat :=
  if p = SEARCH_POLICY_STRICT ∨ p = SEARCH_POLICY_NAME ∨ p = SEARCH_POLICY_KEYWORDS then p
  else SEARCH_POLICY_STRICT

/-- The mutable loop state of one record: the current policy, the last
search result and the stages at which a request was performed. -/
structure StageState where
  policy : Nat
  result : Option (List SearchResultEntry)
  attempted : List Nat
deriving DecidableEq

/-- `if search_policy == SEARCH_POLICY_STRICT: ...` — perform the strict
request and escalate to the name policy on an empty result list. -/
def stageStrict (oracle : Nat → Option (List SearchResultEntry)) (st : StageState) :
    StageState :=
  if st.policy = SEARCH_POLICY_STRICT then
    let r := oracle SEARCH_POLICY_STRICT
    { policy := if r = some [] then SEARCH_POLICY_NAME else st.policy
      result := r
      attempted := st.attempted ++ [SEARCH_POLICY_STRICT] }
  else st

/-- `if search_policy == SEARCH_POLICY_NAME: ...` — clear the registry
parameters, request again, escalate to the keywords policy on an empty
result list. -/
def stageName (oracle : Nat → Option (List SearchResultEntry)) (st : StageState) :
    StageState :=
  if st.policy = SEARCH_POLICY_NAME then
    let r := oracle SEARCH_POLICY_NAME
    { policy := if r = some [] then SEARCH_POLICY_KEYWORDS else st.policy
      result := r
      attempted := st.attempted ++ [SEARCH_POLICY_NAME] }
  else st

/-- `if search_policy == SEARCH_POLICY_KEYWORDS: ...` — switch the
keyword option to match-all and request again; the policy value does not
change further. -/
def stageKeywords (oracle : Nat → Option (List SearchResultEntry)) (st : StageState) :
    StageState :=
  if st.policy = SEARCH_POLICY_KEYWORDS then
    let r := oracle SEARCH_POLICY_KEYWORDS
    { policy := st.policy
      result := r
      attempted := st.attempted ++ [SEARCH_POLICY_KEYWORDS] }
  else st

/-- How the processing of one input record ended. -/
inductive RecordOutcomeKind where
  | skippedNoResult          -- empty result list at the keywords stage
  | skippedRequestFailed     -- `search_result is None`
  | skippedAmbiguous         -- `len(search_result) > 1`
  | indexError               -- `search_result[0]` on an empty list
  | skippedNoEntityIndicator -- entity-information content flag missing
  | skippedEntityFetchFailed -- detail fetch returned nothing
  | completed
deriving DecidableEq

structure ProcessOutcome where
  kind : RecordOutcomeKind
  policiesAttempted : List Nat
  finalPolicy : Nat
  entityFetches : Nat
  documentFetches : Nat
deriving DecidableEq

/-- The per-record body of `main` (src/source/__main__.py lines 290-389),
from the policy initialisation to the fetch fan-out. -/
def processRecord (startPolicy : Nat) (oracle : Nat → Option (List SearchResultEntry))
    (fetchEntity : SearchResultEntry → Option LegalEntityInformation)
    (fetchDocuments : SearchResultEntry → Option DocTree) : ProcessOutcome :=
  let st0 : StageState := ⟨startPolicy, none, []⟩
  let st1 := stageStrict oracle st0
  let st2 := stageName oracle st1
  let st3 := stageKeywords oracle st2
  -- the `continue` inside the keywords block for an empty result list
  if st2.policy = SEARCH_POLICY_KEYWORDS ∧ st3.result = some [] then
    ⟨.skippedNoResult, st3.attempted, st3.policy, 0, 0⟩
  else
    match st3.result with
    | none => ⟨.skippedRequestFailed, st3.attempted, st3.policy, 0, 0⟩
    | some l =>
      if 1 < l.length then ⟨.skippedAmbiguous, st3.attempted, st3.policy, 0, 0⟩
      else
        match l with
        | [] => ⟨.indexError, st3.attempted, st3.policy, 0, 0⟩
        | e :: _ =>
          if e.hasLegalEntityInformation then
            match fetchEntity e with
            | none => ⟨.skippedEntityFetchFailed, st3.attempted, st3.policy, 1, 0⟩
            | some _ =>
              if e.hasDocuments then
                -- a failing documents fetch is logged only
                let _ := fetchDocuments e
                ⟨.completed, st3.attempted, st3.policy, 1, 1⟩
              else ⟨.completed, st3.attempted, st3.policy, 1, 0⟩
          else ⟨.skippedNoEntityIndicator, st3.attempted, st3.policy, 0, 0⟩

/-!
## Well-formed option elements (for the court directory parser)
-/

/-- Token triple of one well-formed `<option>` element: the open tag
with its attributes, one text node, the close tag. -/
def optionTokens (o : List (String × String) × String) : List MarkupToken :=
  [.startTag "option" o.1, .text o.2, .endTag "option"]

/-- The court that `CourtListParser` produces for one well-formed
`<option>` element: present exactly when the element's last `value`
attribute is a nonempty court code, named by the stripped text node. -/
def parsedCourt (o : List (String × String) × String) : Option Court :=
  match lastValueAttr o.1 with
  | some id => if id ≠ "" && isCourtCode id then some ⟨id, pyStrip o.2⟩ else none
  | none => none

/-- Number of option open tags in a stream whose last `value` attribute
is a nonempty court code. -/
def matchingOptionCount (toks : List MarkupToken) : Nat :=
  toks.countP fun t =>
    match t with
    | .startTag tag attrs =>
      tag == "option" &&
        (match lastValueAttr attrs with
         | some id => id ≠ "" && isCourtCode id
         | none => false)
    | _ => false

/-!
## Theorems
-/

/-- C3: for a session with `request_limit = 2` and `limit_interval = 60`
and no delay configured, after two `make_limited_request` calls inside
the current window, a third call made before the window has elapsed
sleeps exactly the remaining window time, leaves the window counter at 1
and starts a fresh window at the moment the sleep ends. -/
theorem session_third_call_sleeps_remaining_window (s0 : Session) (t1 t2 t3 : ℚ)
    (hrl : s0.request_limit = 2) (hli : s0.limit_interval = 60)
    (hlr : s0.limited_requests = 0) (hd : s0.delay ≤ 0)
    (h2 : t2 - t1 < 60) (h3 : t3 - t1 < 60) :
    (((s0.make_limited_request t1).session.make_limited_request
        t2).session.make_limited_request t3).limitSleep = 60 - (t3 - t1) ∧
    (((s0.make_limited_request t1).session.make_limited_request
        t2).session.make_limited_request t3).delaySleep = 0 ∧
    (((s0.make_limited_request t1).session.make_limited_request
        t2).session.make_limited_request t3).session.limited_requests = 1 ∧
    (((s0.make_limited_request t1).session.make_limited_request
        t2).session.make_limited_request t3).session.limit_start = t1 + 60 := by
  have e1 : s0.make_limited_request t1 =
      ⟨{ s0 with limit_start := t1, limited_requests := 1 }, 0, 0⟩ := by
    unfold Session.make_limited_request
    simp only [hrl, hli, hlr, hd]
    norm_num
    intro h
    omega
  have e2 : ({ s0 with limit_start := t1, limited_requests := 1 } : Session).make_limited_request
      t2 = ⟨{ s0 with limit_start := t1, limited_requests := 2 }, 0, 0⟩ := by
    unfold Session.make_limited_request
    simp only [hrl, hli, hd]
    norm_num
    intro h
    omega
  have e3 : ({ s0 with limit_start := t1, limited_requests := 2 } : Session).make_limited_request
      t3 = ⟨{ s0 with limit_start := t1 + 60, limited_requests := 1 }, 60 - (t3 - t1), 0⟩ := by
    unfold Session.make_limited_request
    simp only [hrl, hli, hd]
    rw [if_pos (by norm_num : ((2:Int) > 0 ∧ (60:Int) > 0))]
    norm_num
    rw [if_pos (by linarith : (0:ℚ) < 60 - t3 + t1)]
    norm_num
    rw [if_neg (by omega : ¬ 0 < s0.delay)]
    have ha : t3 + (60 - t3 + t1) = t1 + 60 := by ring
    have hb : (60:ℚ) - t3 + t1 = 60 - (t3 - t1) := by ring
    rw [ha, hb]
  rw [e1, e2, e3]
  norm_num

/-- Witness for C3 at the concrete call times 0, 10 and 30: the third
call sleeps 30 seconds and the fresh window starts at 60. -/
theorem session_third_call_sleeps_remaining_window_witness :
    ((((⟨none, -1, 2, 60, -1, -1, 0⟩ : Session).make_limited_request
        0).session.make_limited_request 10).session.make_limited_request 30).limitSleep = 30 ∧
    ((((⟨none, -1, 2, 60, -1, -1, 0⟩ : Session).make_limited_request
        0).session.make_limited_request 10).session.make_limited_request
        30).session.limited_requests = 1 ∧
    ((((⟨none, -1, 2, 60, -1, -1, 0⟩ : Session).make_limited_request
        0).session.make_limited_request 10).session.make_limited_request
        30).session.limit_start = 60 := by
  have h := session_third_call_sleeps_remaining_window ⟨none, -1, 2, 60, -1, -1, 0⟩ 0 10 30
    rfl rfl rfl (by norm_num) (by norm_num) (by norm_num)
  norm_num at h
  exact ⟨h.1, h.2.2.1, h.2.2.2⟩

/-- C10: `create_child` on a non-directory element raises `ValueError`
and leaves the arena (in particular the element, whose children stay
`None`) unchanged; on a directory element it appends exactly one new
node to the element's children, and the new node's parent reference is
that element. -/
theorem create_child_spec (arena : List TreeNode) (self : Nat) (name : Option String)
    (as_directory : Bool) (node : TreeNode) (hnode : arena[self]? = some node) :
    (node.children = none →
      create_child arena self name as_directory =
        (arena, .error "Cannot create a child for an element that is not a directory")) ∧
    (∀ cs, node.children = some cs →
      (create_child arena self name as_directory).2 = .ok arena.length ∧
      (create_child arena self name as_directory).1.length = arena.length + 1 ∧
      (create_child arena self name as_directory).1[self]? =
        some { node with children := some (cs ++ [arena.length]) } ∧
      (create_child arena self name as_directory).1[arena.length]? =
        some ⟨name, some self, if as_directory then some [] else none⟩) := by
  have hlt : self < arena.length := by
    rcases List.getElem?_eq_some.mp hnode with ⟨h, _⟩
    exact h
  constructor
  · intro h
    unfold create_child
    simp only [hnode, h]
  · intro cs h
    unfold create_child
    simp only [hnode, h]
    refine ⟨by simp, by simp, ?_, ?_⟩
    · rw [List.getElem?_append]
      rw [if_pos (by simpa using hlt)]
      rw [List.getElem?_set_self]
      exact hlt
    · rw [List.getElem?_append]
      rw [if_neg (by simp)]
      simp

/-- Witness for C10: a two-element arena with a directory root and a
file child; creating a child of the file fails, creating one of the root
succeeds. -/
theorem create_child_spec_witness :
    (create_child [⟨some "root", none, some [1]⟩, ⟨some "f", some 0, none⟩] 1 (some "x") false =
      ([⟨some "root", none, some [1]⟩, ⟨some "f", some 0, none⟩],
        .error "Cannot create a child for an element that is not a directory")) ∧
    (create_child [⟨some "root", none, some [1]⟩, ⟨some "f", some 0, none⟩] 0 (some "x") false).2 =
      .ok 2 := by
  constructor
  · exact (create_child_spec [⟨some "root", none, some [1]⟩, ⟨some "f", some 0, none⟩] 1
      (some "x") false ⟨some "f", some 0, none⟩ rfl).1 rfl
  · exact ((create_child_spec [⟨some "root", none, some [1]⟩, ⟨some "f", some 0, none⟩] 0
      (some "x") false ⟨some "root", none, some [1]⟩ rfl).2 [1] rfl).1

/-- C5 counterexample: the input registry-type value `"-9"` is not one of
the five known codes, yet the reader drops it without logging any
diagnostic — refuting the claim that every unknown registry-type value
is dropped with a logged diagnostic. -/
theorem readRegistryType_silent_sentinel_counterexample :
    ("-9" ∉ REGISTRY_TYPES) ∧ readRegistryType "-9" "Example Firm" = (none, []) := by
  constructor
  · decide
  · rfl

/-- C5 (amended): an input registry-type value that is neither a known
code nor the missing-value marker `"-9"` is replaced by `None` together
with a logged diagnostic; `"-9"` is dropped silently; the value the
reader produces is always `None` or a known code, feeding it to the
`LegalEntityInformation` constructor never raises, and every constructed
`LegalEntityInformation` has a registry type that is `None` or one of
the five known codes. -/
theorem registry_type_invariant_amended (rt name : String)
    (h1 : rt ∉ REGISTRY_TYPES) (h2 : rt ≠ "-9") :
    readRegistryType rt name =
      (none, ["Omitting invalid registry type " ++ rt ++ " for search record " ++ name]) ∧
    (∀ rt' : String, (readRegistryType rt' name).1 = none ∨
      ∃ t ∈ REGISTRY_TYPES, (readRegistryType rt' name).1 = some t) ∧
    (∀ (nm ct rid st : Option String) (cap : Option ℚ) (cur ent del : Option String)
      (bal : Option (List String)) (addr pc city : Option String) (rt' : String),
      ∃ e, LegalEntityInformation.make nm ct (readRegistryType rt' name).1 rid st cap
          cur ent del bal addr pc city = .ok e ∧
        (e.registry_type = none ∨ ∃ t ∈ REGISTRY_TYPES, e.registry_type = some t)) ∧
    (∀ (nm ct rt0 rid st : Option String) (cap : Option ℚ) (cur ent del : Option String)
      (bal : Option (List String)) (addr pc city : Option String)
      (e : LegalEntityInformation),
      LegalEntityInformation.make nm ct rt0 rid st cap cur ent del bal addr pc city = .ok e →
      e.registry_type = none ∨ ∃ t ∈ REGISTRY_TYPES, e.registry_type = some t) := by
  have hval : ∀ rt' : String, (readRegistryType rt' name).1 = none ∨
      ∃ t ∈ REGISTRY_TYPES, (readRegistryType rt' name).1 = some t := by
    intro rt'
    by_cases hm : rt' ∈ REGISTRY_TYPES
    · exact Or.inr ⟨rt', hm, by simp [readRegistryType, hm]⟩
    · by_cases h9 : rt' = "-9"
      · subst h9
        left
        simp [readRegistryType, show ("-9" : String) ∉ REGISTRY_TYPES from by decide]
      · simp [readRegistryType, hm, h9]
  refine ⟨by simp [readRegistryType, h1, h2], hval, ?_, ?_⟩
  · intro nm ct rid st cap cur ent del bal addr pc city rt'
    rcases hval rt' with hv | ⟨t, ht, hv⟩
    · rw [hv]
      exact ⟨_, rfl, Or.inl rfl⟩
    · rw [hv]
      refine ⟨⟨nm, ct, some t, rid, st, cap, cur, ent, del, bal, addr, pc, city⟩, ?_, ?_⟩
      · simp [LegalEntityInformation.make, ht]
      · exact Or.inr ⟨t, ht, rfl⟩
  · intro nm ct rt0 rid st cap cur ent del bal addr pc city e he
    cases rt0 with
    | none =>
      simp only [LegalEntityInformation.make, Except.ok.injEq] at he
      subst he
      exact Or.inl rfl
    | some t =>
      by_cases ht : t ∈ REGISTRY_TYPES
      · simp only [LegalEntityInformation.make, ht, if_pos, Except.ok.injEq] at he
        subst he
        exact Or.inr ⟨t, ht, rfl⟩
      · simp [LegalEntityInformation.make, ht] at he

/-- Witness for C5 (amended) at the unknown registry type `"XYZ"`: it is
dropped with a diagnostic. -/
theorem registry_type_invariant_amended_witness :
    readRegistryType "XYZ" "Firm" =
      (none, ["Omitting invalid registry type XYZ for search record Firm"]) := by
  have h := registry_type_invariant_amended "XYZ" "Firm" (by decide) (by decide)
  have h1 := h.1
  simpa using h1

/-- C7: the capital text `"1.234.567,89 EUR"` parses to the amount
1234567.89 with currency `"EUR"`, and any capital text whose content
after the amount group is only whitespace (no currency suffix) parses to
a null currency. -/
theorem set_capital_spec (s : String) (v : ℚ) (r : List Char)
    (h : parseNumber (s.data.dropWhile isPySpace) = some (v, r))
    (hr : (r.dropWhile isPySpace).isEmpty = true) :
    parseCapital "1.234.567,89 EUR" = some (123456789 / 100, some "EUR") ∧
    parseCapital s = some (v, none) := by
  constructor
  · have e1 : natOfDigits ['1','2','3','4','5','6','7'] = 1234567 := by decide
    have e2 : natOfDigits ['8','9'] = 89 := by decide
    have hc : parseCapital "1.234.567,89 EUR" =
        some ((natOfDigits ['1','2','3','4','5','6','7'] : ℚ) +
          (natOfDigits ['8','9'] : ℚ) / (10 ^ 2 : ℚ), some "EUR") := rfl
    rw [hc, e1, e2]
    norm_num
  · have hr' : r.dropWhile isPySpace = [] := by simpa using hr
    unfold parseCapital
    simp only [h, hr']

/-- Witness for C7 at the currency-free capital text `" 500 "`. -/
theorem set_capital_spec_witness : parseCapital " 500 " = some (500, none) := by
  have h := set_capital_spec " 500 " (natOfDigits ['5','0','0'] : ℚ) [' '] rfl rfl
  rw [h.2]
  have e : natOfDigits ['5','0','0'] = 500 := by decide
  rw [e]
  norm_num

/-- C4 counterexample: a documents tree whose "Liste der Gesellschafter"
folder has two leaf children with embedded dates, but whose leaf names
do not start with the marker string — the extraction yields the empty
dates list, not the two dates. -/
theorem shareholder_dates_counterexample :
    searchDate "Dokument 1.1.2020" = some "1.1.2020" ∧
    searchDate "Dokument 2.2.2021" = some "2.2.2021" ∧
    shareholder_lists_dates
      (.dir "" [.dir "Liste der Gesellschafter"
        [.file "Dokument 1.1.2020", .file "Dokument 2.2.2021"]]) = some [] ∧
    some ([] : List (Option String)) ≠ some [some "1.1.2020", some "2.2.2021"] := by
  refine ⟨by decide, by decide, ?_, by decide⟩
  simp [shareholder_lists_dates, extractDates, pyStartsWith, GESELLSCHAFTER_MARKER]

/-- C4 (amended): for a documents tree with a directory node labeled
"Liste der Gesellschafter" holding exactly two leaf children whose names
start with that marker and contain date substrings, the extracted dates
list is exactly those two dates in document order. -/
theorem shareholder_dates_amended (rname n1 n2 d1 d2 : String)
    (h1 : pyStartsWith n1 GESELLSCHAFTER_MARKER = true)
    (h2 : pyStartsWith n2 GESELLSCHAFTER_MARKER = true)
    (hs1 : searchDate n1 = some d1) (hs2 : searchDate n2 = some d2) :
    shareholder_lists_dates
      (.dir rname [.dir GESELLSCHAFTER_MARKER [.file n1, .file n2]]) =
      some [some d1, some d2] := by
  simp [shareholder_lists_dates, extractDates, h1, h2, hs1, hs2]

/-- Witness for C4 (amended) on a concrete two-leaf fixture. -/
theorem shareholder_dates_amended_witness :
    shareholder_lists_dates
      (.dir "root" [.dir GESELLSCHAFTER_MARKER
        [.file "Liste der Gesellschafter - Aufnahme vom 01.01.2020",
         .file "Liste der Gesellschafter - Aufnahme vom 02.02.2021"]]) =
      some [some "01.01.2020", some "02.02.2021"] := by
  exact shareholder_dates_amended "root"
    "Liste der Gesellschafter - Aufnahme vom 01.01.2020"
    "Liste der Gesellschafter - Aufnahme vom 02.02.2021"
    "01.01.2020" "02.02.2021" (by decide) (by decide) (by decide) (by decide)

/-- All outcome branches of `processRecord` report the same attempted
stage list, namely the one accumulated by the three stage blocks. -/
theorem processRecord_attempted_eq (start : Nat)
    (oracle : Nat → Option (List SearchResultEntry))
    (fe : SearchResultEntry → Option LegalEntityInformation)
    (fd : SearchResultEntry → Option DocTree) :
    (processRecord start oracle fe fd).policiesAttempted =
      (stageKeywords oracle (stageName oracle (stageStrict oracle ⟨start, none, []⟩))).attempted := by
  unfold processRecord
  dsimp only
  repeat' split
  all_goals rfl

/-- The configured search policy is always validated to one of the three
policy values. -/
theorem validateSearchPolicy_mem (p : Nat) :
    validateSearchPolicy p = 1 ∨ validateSearchPolicy p = 2 ∨ validateSearchPolicy p = 3 := by
  unfold validateSearchPolicy SEARCH_POLICY_STRICT SEARCH_POLICY_NAME SEARCH_POLICY_KEYWORDS
  split_ifs with h
  · exact h
  · exact Or.inl rfl

/-- Enumeration of the attempted stage lists. -/
theorem processRecord_attempted_cases (start : Nat)
    (oracle : Nat → Option (List SearchResultEntry))
    (fe : SearchResultEntry → Option LegalEntityInformation)
    (fd : SearchResultEntry → Option DocTree)
    (hs : start = 1 ∨ start = 2 ∨ start = 3) :
    (processRecord start oracle fe fd).policiesAttempted =
      if start = 1 then
        (if oracle 1 = some [] then
          (if oracle 2 = some [] then [1, 2, 3] else [1, 2])
        else [1])
      else if start = 2 then
        (if oracle 2 = some [] then [2, 3] else [2])
      else [3] := by
  rw [processRecord_attempted_eq]
  rcases hs with rfl | rfl | rfl <;>
    by_cases h1 : oracle 1 = some [] <;>
    by_cases h2 : oracle 2 = some [] <;>
    simp [stageStrict, stageName, stageKeywords, SEARCH_POLICY_STRICT, SEARCH_POLICY_NAME,
      SEARCH_POLICY_KEYWORDS, h1, h2]

/-- C1: for every record, the stages attempted by the orchestrator form
a forward chain (`STRICT → NAME → KEYWORDS`, never backward) in which
each escalation happens only because the previous stage returned an
empty result list, and any attempted stage whose result list has exactly
one entry is the last stage attempted. -/
theorem orchestrator_policy_escalation (p : Nat)
    (oracle : Nat → Option (List SearchResultEntry))
    (fe : SearchResultEntry → Option LegalEntityInformation)
    (fd : SearchResultEntry → Option DocTree) :
    ((processRecord (validateSearchPolicy p) oracle fe fd).policiesAttempted).Chain'
      (fun a b => a < b ∧ oracle a = some []) ∧
    (∀ s ∈ (processRecord (validateSearchPolicy p) oracle fe fd).policiesAttempted,
      ∀ l, oracle s = some l → l.length = 1 →
        (processRecord (validateSearchPolicy p) oracle fe fd).policiesAttempted.getLast?
          = some s) := by
  have hmem := validateSearchPolicy_mem p
  have hcases := processRecord_attempted_cases (validateSearchPolicy p) oracle fe fd hmem
  rcases hmem with hv | hv | hv <;> rw [hv] at hcases ⊢ <;>
    by_cases h1 : oracle 1 = some [] <;> by_cases h2 : oracle 2 = some [] <;>
    simp only [h1, h2] at hcases <;> norm_num at hcases <;> rw [hcases] <;>
    refine ⟨by simp [List.chain'_cons, h1, h2], ?_⟩ <;>
    intro s hs l hl hlen <;> fin_cases hs <;> simp_all

/-- Witness for C1: with a strict-stage empty result and a unique
name-stage result, the name stage is the last stage attempted. -/
theorem orchestrator_policy_escalation_witness :
    (processRecord (validateSearchPolicy 1)
      (fun s => if s = 1 then some [] else some [⟨1, "X", true, false⟩])
      (fun _ => none) (fun _ => none)).policiesAttempted.getLast? = some 2 := by
  have h := orchestrator_policy_escalation 1
    (fun s => if s = 1 then some [] else some [⟨1, "X", true, false⟩])
    (fun _ => none) (fun _ => none)
  exact h.2 2 (by decide) [⟨1, "X", true, false⟩] rfl rfl

/-- C2: if the result list at an attempted stage has more than one
entry, that stage is the last one attempted (no further escalation) and
the record is skipped as ambiguous with no entity-detail fetch and no
document-tree fetch. -/
theorem orchestrator_ambiguous_terminal (p : Nat)
    (oracle : Nat → Option (List SearchResultEntry))
    (fe : SearchResultEntry → Option LegalEntityInformation)
    (fd : SearchResultEntry → Option DocTree) (s : Nat) (l : List SearchResultEntry)
    (hl : oracle s = some l) (hlen : 1 < l.length)
    (hs : s ∈ (processRecord (validateSearchPolicy p) oracle fe fd).policiesAttempted) :
    (processRecord (validateSearchPolicy p) oracle fe fd).policiesAttempted.getLast?
      = some s ∧
    (processRecord (validateSearchPolicy p) oracle fe fd).kind = .skippedAmbiguous ∧
    (processRecord (validateSearchPolicy p) oracle fe fd).entityFetches = 0 ∧
    (processRecord (validateSearchPolicy p) oracle fe fd).documentFetches = 0 := by
  have hlne : l ≠ [] := by rintro rfl; simp at hlen
  have hmem := validateSearchPolicy_mem p
  have hcases := processRecord_attempted_cases (validateSearchPolicy p) oracle fe fd hmem
  rcases hmem with hv | hv | hv <;> rw [hv] at hcases hs ⊢ <;>
    by_cases h1 : oracle 1 = some [] <;> by_cases h2 : oracle 2 = some [] <;>
    simp only [h1, h2] at hcases <;> norm_num at hcases <;>
    rw [hcases] at hs <;> fin_cases hs <;>
    simp_all [processRecord, stageStrict, stageName, stageKeywords, SEARCH_POLICY_STRICT,
      SEARCH_POLICY_NAME, SEARCH_POLICY_KEYWORDS]

/-- Witness for C2: an ambiguous two-entry result at the strict stage
ends the record with no fetches. -/
theorem orchestrator_ambiguous_terminal_witness :
    (processRecord (validateSearchPolicy 1)
      (fun _ => some [⟨1, "X", true, false⟩, ⟨2, "Y", true, false⟩])
      (fun _ => none) (fun _ => none)).kind = RecordOutcomeKind.skippedAmbiguous ∧
    (processRecord (validateSearchPolicy 1)
      (fun _ => some [⟨1, "X", true, false⟩, ⟨2, "Y", true, false⟩])
      (fun _ => none) (fun _ => none)).entityFetches = 0 := by
  have h := orchestrator_ambiguous_terminal 1
    (fun _ => some [⟨1, "X", true, false⟩, ⟨2, "Y", true, false⟩])
    (fun _ => none) (fun _ => none) 1 [⟨1, "X", true, false⟩, ⟨2, "Y", true, false⟩]
    rfl (by decide) (by decide)
  exact ⟨h.2.1, h.2.2.1⟩

/-- C9: closest-name resolution is deterministic — for one directory and
one input name, two calls return the same court. -/
theorem get_closest_from_name_deterministic (cl1 cl2 : CourtList) (n1 n2 : Option String)
    (hcl : cl1 = cl2) (hn : n1 = n2) :
    cl1.get_closest_from_name n1 = cl2.get_closest_from_name n2 := by
  rw [hcl, hn]

/-- Witness for C9 on a concrete directory and name. -/
theorem get_closest_from_name_deterministic_witness :
    (CourtList.make [⟨"D1111", "Amtsgericht X"⟩]).get_closest_from_name (some "X") =
      (CourtList.make [⟨"D1111", "Amtsgericht X"⟩]).get_closest_from_name (some "X") :=
  get_closest_from_name_deterministic _ _ _ _ rfl rfl

/-- One well-formed option element moves the parser from `AWAIT_OPTION`
back to `AWAIT_OPTION`, appending exactly the parsed court (if any). -/
theorem courtListStep_option (res : List Court) (o : List (String × String) × String) :
    (optionTokens o).foldl courtListStep ⟨COURT_STATE_AWAIT_OPTION, res, none⟩ =
      ⟨COURT_STATE_AWAIT_OPTION, res ++ (parsedCourt o).toList, none⟩ := by
  rcases o with ⟨attrs, txt⟩
  unfold optionTokens parsedCourt
  rcases hv : lastValueAttr attrs with _ | id
  · simp [courtListStep, hv, COURT_STATE_AWAIT_OPTION, COURT_STATE_NAME,
      COURT_STATE_AWAIT_NAME, COURT_STATE_VOID]
  · by_cases hc : ¬id = "" ∧ isCourtCode id = true
    · simp [courtListStep, hv, hc, COURT_STATE_AWAIT_OPTION, COURT_STATE_NAME,
        COURT_STATE_AWAIT_NAME, COURT_STATE_VOID]
    · simp [courtListStep, hv, hc, COURT_STATE_AWAIT_OPTION, COURT_STATE_NAME,
        COURT_STATE_AWAIT_NAME, COURT_STATE_VOID]

/-- Folding a sequence of well-formed option elements from the
`AWAIT_OPTION` state parses each element independently, in order. -/
theorem courtListStep_options (opts : List (List (String × String) × String))
    (res : List Court) :
    (opts.flatMap optionTokens).foldl courtListStep ⟨COURT_STATE_AWAIT_OPTION, res, none⟩ =
      ⟨COURT_STATE_AWAIT_OPTION, res ++ opts.filterMap parsedCourt, none⟩ := by
  induction opts generalizing res with
  | nil => simp
  | cons o rest ih =>
    rw [List.flatMap_cons, List.foldl_append, courtListStep_option, ih]
    rcases hpo : parsedCourt o with _ | c <;> simp [hpo, List.filterMap_cons]

/-- Inserting into a Python dict keeps the key order and appends unseen
keys at the end. -/
theorem pyDictInsert_keys (m : List (String × Court)) (k : String) (v : Court) :
    (pyDictInsert m k v).map Prod.fst =
      if k ∈ m.map Prod.fst then m.map Prod.fst else m.map Prod.fst ++ [k] := by
  induction m with
  | nil => simp [pyDictInsert]
  | cons p rest ih =>
    rcases p with ⟨k', v'⟩
    by_cases hk : k' = k
    · subst hk
      simp [pyDictInsert]
    · have hk2 : ¬ k = k' := fun h => hk h.symm
      simp only [pyDictInsert, if_neg hk, List.map_cons, List.mem_cons, hk2, false_or]
      rw [ih]
      split_ifs <;> simp

/-- The keys of a dict built by repeated insertion are duplicate-free
and are exactly the keys inserted. -/
theorem pyDict_foldl_keys (l : List (String × Court)) :
    ∀ m : List (String × Court), (m.map Prod.fst).Nodup →
      ((l.foldl (fun m p => pyDictInsert m p.1 p.2) m).map Prod.fst).Nodup ∧
      (∀ a, a ∈ (l.foldl (fun m p => pyDictInsert m p.1 p.2) m).map Prod.fst ↔
        a ∈ m.map Prod.fst ∨ a ∈ l.map Prod.fst) := by
  induction l with
  | nil =>
    intro m hm
    simp [hm]
  | cons p rest ih =>
    intro m hm
    have hkeys := pyDictInsert_keys m p.1 p.2
    have hnodup : ((pyDictInsert m p.1 p.2).map Prod.fst).Nodup := by
      rw [hkeys]
      split_ifs with h
      · exact hm
      · simp [List.nodup_append, hm]
        intro x hx
        exact h (List.mem_map.mpr ⟨(p.1, x), hx, rfl⟩)
    obtain ⟨ih1, ih2⟩ := ih (pyDictInsert m p.1 p.2) hnodup
    refine ⟨ih1, fun a => ?_⟩
    rw [List.foldl_cons, ih2 a, hkeys]
    split_ifs with h
    · simp only [List.map_cons, List.mem_cons]
      constructor
      · rintro (h1 | h1)
        · exact Or.inl h1
        · exact Or.inr (Or.inr h1)
      · rintro (h1 | h1 | h1)
        · exact Or.inl h1
        · exact Or.inl (h1 ▸ h)
        · exact Or.inr h1
    · simp only [List.map_cons, List.mem_cons, List.mem_append, List.mem_singleton]
      tauto

/-- The size of a Python dict built from a pair list is the number of
distinct keys in the list. -/
theorem pyDict_length (l : List (String × Court)) :
    (pyDict l).length = (l.map Prod.fst).dedup.length := by
  unfold pyDict
  obtain ⟨hnd, hmem⟩ := pyDict_foldl_keys l [] (by simp)
  have h1 : ((l.foldl (fun m p => pyDictInsert m p.1 p.2) []).map Prod.fst).toFinset =
      (l.map Prod.fst).toFinset := by
    ext a
    simp [List.mem_toFinset, hmem a]
  calc (l.foldl (fun m p => pyDictInsert m p.1 p.2) []).length
      = ((l.foldl (fun m p => pyDictInsert m p.1 p.2) []).map Prod.fst).length := by simp
    _ = ((l.foldl (fun m p => pyDictInsert m p.1 p.2) []).map Prod.fst).dedup.length := by
        rw [List.Nodup.dedup hnd]
    _ = ((l.foldl (fun m p => pyDictInsert m p.1 p.2) []).map Prod.fst).toFinset.card :=
        (List.card_toFinset _).symm
    _ = (l.map Prod.fst).toFinset.card := by rw [h1]
    _ = (l.map Prod.fst).dedup.length := List.card_toFinset _

/-- C8 counterexample: a stream in which a code-carrying `<option>` has
no text node before its close tag derails the parser — two options with
matching codes are fed, but only one `Court` is produced. -/
theorem court_list_parser_counterexample :
    matchingOptionCount
        [MarkupToken.startTag "select" [("name", "registergericht")],
         MarkupToken.startTag "option" [("value", "A0001")],
         MarkupToken.endTag "option",
         MarkupToken.startTag "option" [("value", "B0002")],
         MarkupToken.text "X",
         MarkupToken.endTag "option",
         MarkupToken.endTag "select"] = 2 ∧
    (runCourtListParser
        [MarkupToken.startTag "select" [("name", "registergericht")],
         MarkupToken.startTag "option" [("value", "A0001")],
         MarkupToken.endTag "option",
         MarkupToken.startTag "option" [("value", "B0002")],
         MarkupToken.text "X",
         MarkupToken.endTag "option",
         MarkupToken.endTag "select"]).result = [⟨"A0001", "X"⟩] := by
  constructor
  · decide
  · decide

/-- C8 (amended): for a well-formed token stream — the court `<select>`
followed by `<option>` elements each consisting of an open tag, one text
node and a close tag — the parser produces exactly one `Court` per
option whose last `value` attribute is a nonempty court code, named by
its stripped text node, and the identifier index of the resulting
directory has as many entries as there are distinct such codes. -/
theorem court_list_parser_wellformed (sel : List (String × String))
    (opts : List (List (String × String) × String))
    (hsel : sel.any (fun p => p.1 = "name" && p.2 = "registergericht") = true) :
    (runCourtListParser (MarkupToken.startTag "select" sel ::
        (opts.flatMap optionTokens ++ [MarkupToken.endTag "select"]))).result =
      opts.filterMap parsedCourt ∧
    (CourtList.make (runCourtListParser (MarkupToken.startTag "select" sel ::
        (opts.flatMap optionTokens ++ [MarkupToken.endTag "select"]))).result).identifier_map.length =
      ((opts.filterMap parsedCourt).map Court.identifier).dedup.length := by
  have hrun : runCourtListParser (MarkupToken.startTag "select" sel ::
      (opts.flatMap optionTokens ++ [MarkupToken.endTag "select"])) =
      ⟨COURT_STATE_VOID, opts.filterMap parsedCourt, none⟩ := by
    unfold runCourtListParser
    rw [List.foldl_cons]
    have hfirst : courtListStep courtParseInit (.startTag "select" sel) =
        ⟨COURT_STATE_AWAIT_OPTION, [], none⟩ := by
      simp [courtListStep, courtParseInit, hsel]
    rw [hfirst, List.foldl_append, courtListStep_options]
    simp [courtListStep, COURT_STATE_AWAIT_OPTION, COURT_STATE_VOID]
  refine ⟨by rw [hrun], ?_⟩
  rw [hrun]
  unfold CourtList.make
  dsimp only
  rw [pyDict_length]
  simp only [List.map_map]
  rfl

/-- Witness for C8 (amended): one valid option and one junk option
produce exactly one court and an identifier index of size one. -/
theorem court_list_parser_wellformed_witness :
    (runCourtListParser (MarkupToken.startTag "select" [("name", "registergericht")] ::
        ([([("value", "B1234")], " Amtsgericht Berlin "), ([("value", "xx")], "junk")].flatMap
          optionTokens ++ [MarkupToken.endTag "select"]))).result =
      [⟨"B1234", "Amtsgericht Berlin"⟩] := by
  have h := court_list_parser_wellformed [("name", "registergericht")]
    [([("value", "B1234")], " Amtsgericht Berlin "), ([("value", "xx")], "junk")] (by decide)
  rw [h.1]
  decide

/-- The similarity is never negative. -/
theorem sequenceSimilarity_nonneg (a b : String) : 0 ≤ sequenceSimilarity a b := by
  unfold sequenceSimilarity
  dsimp only
  split_ifs
  · norm_num
  · positivity

/-- Any member's similarity is bounded by the maximum. -/
theorem le_maxSimilarity (nm : String) (l : List (String × Court)) (p : String × Court)
    (hp : p ∈ l) : sequenceSimilarity nm p.1 ≤ maxSimilarity nm l := by
  induction l with
  | nil => cases hp
  | cons q rest ih =>
    rcases List.mem_cons.mp hp with rfl | hmem
    · simp only [maxSimilarity, List.map_cons, List.foldr_cons]
      exact le_max_left _ _
    · simp only [maxSimilarity, List.map_cons, List.foldr_cons]
      exact le_trans (ih hmem) (le_max_right _ _)

/-- When nothing beats the accumulator, the strict-improvement fold
leaves it unchanged (the `r > ratio` comparison never fires). -/
theorem bestFold_no_improvement (nm : String) (l : List (String × Court))
    (acc : Option Court × ℚ) (h : ∀ p ∈ l, sequenceSimilarity nm p.1 ≤ acc.2) :
    l.foldl (bestSimilarityStep nm) acc = acc := by
  induction l generalizing acc with
  | nil => rfl
  | cons p rest ih =>
    rw [List.foldl_cons]
    have hstep : bestSimilarityStep nm acc p = acc := by
      unfold bestSimilarityStep
      rw [if_neg (not_lt.mpr (h p (by simp)))]
    rw [hstep]
    exact ih _ (fun q hq => h q (by simp [hq]))

/-- When the maximum beats the accumulator, the fold returns the first
entry attaining the maximum (ties broken by first-encountered order). -/
theorem bestFold_attains (nm : String) (l : List (String × Court)) :
    ∀ acc : Option Court × ℚ, 0 ≤ acc.2 → acc.2 < maxSimilarity nm l →
      ∃ q, l.find? (fun p => sequenceSimilarity nm p.1 = maxSimilarity nm l) = some q ∧
        l.foldl (bestSimilarityStep nm) acc = (some q.2, maxSimilarity nm l) := by
  induction l with
  | nil =>
    intro acc hnn h
    simp only [maxSimilarity, List.map_nil, List.foldr_nil] at h
    exact absurd (lt_of_le_of_lt hnn h) (lt_irrefl 0)
  | cons p rest ih =>
    intro acc hnn h
    have hmax : maxSimilarity nm (p :: rest) =
        max (sequenceSimilarity nm p.1) (maxSimilarity nm rest) := by
      simp [maxSimilarity]
    by_cases hp : sequenceSimilarity nm p.1 = maxSimilarity nm (p :: rest)
    · refine ⟨p, ?_, ?_⟩
      · rw [List.find?_cons_of_pos]
        simpa using hp
      · rw [List.foldl_cons]
        have hstep : bestSimilarityStep nm acc p = (some p.2, maxSimilarity nm (p :: rest)) := by
          unfold bestSimilarityStep
          rw [if_pos (by rw [hp]; exact h), hp]
        rw [hstep]
        refine bestFold_no_improvement nm rest _ (fun q hq => ?_)
        calc sequenceSimilarity nm q.1 ≤ maxSimilarity nm rest :=
              le_maxSimilarity nm rest q hq
          _ ≤ maxSimilarity nm (p :: rest) := by rw [hmax]; exact le_max_right _ _
    · have hplt : sequenceSimilarity nm p.1 < maxSimilarity nm (p :: rest) :=
        lt_of_le_of_ne (le_maxSimilarity nm (p :: rest) p (by simp)) hp
      have hrest : maxSimilarity nm rest = maxSimilarity nm (p :: rest) := by
        rcases max_choice (sequenceSimilarity nm p.1) (maxSimilarity nm rest) with hc | hc
        · rw [hmax] at hp hplt
          exact absurd hc (by intro hcc; exact hp hcc.symm)
        · rw [hmax, hc]
      have hacc2 : bestSimilarityStep nm acc p =
          if acc.2 < sequenceSimilarity nm p.1 then (some p.2, sequenceSimilarity nm p.1)
          else acc := rfl
      rw [List.foldl_cons, List.find?_cons_of_neg _ (by simpa using hp)]
      have hlt' : (bestSimilarityStep nm acc p).2 < maxSimilarity nm rest := by
        rw [hacc2, hrest]
        split_ifs
        · exact hplt
        · exact h
      have hnn' : 0 ≤ (bestSimilarityStep nm acc p).2 := by
        rw [hacc2]
        split_ifs
        · exact sequenceSimilarity_nonneg _ _
        · exact hnn
      obtain ⟨q, hq1, hq2⟩ := ih (bestSimilarityStep nm acc p) hnn' hlt'
      rw [hrest] at hq1 hq2
      exact ⟨q, hq1, hq2⟩

/-- C6 counterexample: a non-empty directory and a non-empty name with
no character in common — every similarity is 0, the strict `r > 0`
comparison never fires, and the lookup returns `None`. -/
theorem get_closest_zero_similarity_counterexample :
    (CourtList.make [⟨"D1111", "aa"⟩]).name_map ≠ [] ∧
    ("b" : String) ≠ "" ∧
    CourtList.get_closest_from_name (CourtList.make [⟨"D1111", "aa"⟩]) (some "b") = none := by
  have hscore : sequenceSimilarity "b" "aa" = 0 := by
    have h1 : ("b" : String).data = ['b'] := rfl
    have h2 : ("aa" : String).data = ['a', 'a'] := rfl
    have hm : matchingTotal 4 ['b'] ['a', 'a'] = 0 := by decide
    unfold sequenceSimilarity
    rw [h1, h2]
    norm_num [hm]
  have hmap : (CourtList.make [⟨"D1111", "aa"⟩]).name_map =
      [("aa", ⟨"D1111", "aa"⟩)] := rfl
  have hfind : ([("aa", (⟨"D1111", "aa"⟩ : Court))].find?
      (fun p => parenContains "b" p.1)) = none := by decide
  refine ⟨by rw [hmap]; simp, by decide, ?_⟩
  simp only [CourtList.get_closest_from_name, hmap, hfind]
  simp only [List.foldl_cons, List.foldl_nil, bestSimilarityStep, hscore]
  norm_num

/-- C6 (amended): `get_closest_from_name` returns `None` for a null
name; it returns `None` for a given name exactly when no court name
contains the parenthesized name and every similarity is at most 0 — in
particular a non-empty directory and non-empty name alone do not
guarantee a result; when a parenthesized match exists the first one is
returned; otherwise, when some court has positive similarity, the court
returned is the first one attaining the maximal similarity. -/
theorem get_closest_from_name_amended (cl : CourtList) (nm : String)
    (hfp : cl.name_map.find? (fun p => parenContains nm p.1) = none)
    (hpos : 0 < maxSimilarity nm cl.name_map) :
    (cl.get_closest_from_name none = none) ∧
    (∀ cl' : CourtList, ∀ nm' : String,
      cl'.name_map.find? (fun p => parenContains nm' p.1) = none →
      maxSimilarity nm' cl'.name_map ≤ 0 →
      cl'.get_closest_from_name (some nm') = none) ∧
    (∀ cl' : CourtList, ∀ nm' : String, ∀ p,
      cl'.name_map.find? (fun q => parenContains nm' q.1) = some p →
      cl'.get_closest_from_name (some nm') = some p.2) ∧
    (∃ q, cl.name_map.find?
        (fun p => sequenceSimilarity nm p.1 = maxSimilarity nm cl.name_map) = some q ∧
      cl.get_closest_from_name (some nm) = some q.2) := by
  refine ⟨rfl, ?_, ?_, ?_⟩
  · intro cl' nm' hf hmax
    simp only [CourtList.get_closest_from_name, hf]
    rw [bestFold_no_improvement nm' cl'.name_map (none, 0)
      (fun p hp => le_trans (le_maxSimilarity nm' cl'.name_map p hp) hmax)]
  · intro cl' nm' p hf
    simp only [CourtList.get_closest_from_name, hf]
  · obtain ⟨q, hq1, hq2⟩ := bestFold_attains nm cl.name_map (none, 0) (le_refl 0) hpos
    refine ⟨q, hq1, ?_⟩
    simp only [CourtList.get_closest_from_name, hfp, hq2]

/-- Witness for C6 (amended) on a one-court directory with positive
similarity: the single court is returned as the maximiser. -/
theorem get_closest_from_name_amended_witness :
    CourtList.get_closest_from_name (CourtList.make [⟨"D1111", "ab"⟩]) (some "ab") =
      some ⟨"D1111", "ab"⟩ := by
  have hfp : (CourtList.make [⟨"D1111", "ab"⟩]).name_map.find?
      (fun p => parenContains "ab" p.1) = none := by decide
  have hsim : sequenceSimilarity "ab" "ab" = 1 := by
    have h1 : ("ab" : String).data = ['a', 'b'] := rfl
    have hm : matchingTotal 5 ['a', 'b'] ['a', 'b'] = 2 := by decide
    unfold sequenceSimilarity
    rw [h1]
    norm_num [hm]
  have hmax : maxSimilarity "ab" (CourtList.make [⟨"D1111", "ab"⟩]).name_map = 1 := by
    have hmap : (CourtList.make [⟨"D1111", "ab"⟩]).name_map =
        [("ab", ⟨"D1111", "ab"⟩)] := rfl
    rw [hmap]
    simp [maxSimilarity, hsim]
  have h := get_closest_from_name_amended (CourtList.make [⟨"D1111", "ab"⟩]) "ab" hfp
    (by rw [hmax]; norm_num)
  obtain ⟨q, hq1, hq2⟩ := h.2.2.2
  have hqv : q = ("ab", (⟨"D1111", "ab"⟩ : Court)) := by
    have hmap : (CourtList.make [⟨"D1111", "ab"⟩]).name_map =
        [("ab", ⟨"D1111", "ab"⟩)] := rfl
    have hmax2 : maxSimilarity "ab" [("ab", (⟨"D1111", "ab"⟩ : Court))] = 1 := by
      simp [maxSimilarity, hsim]
    rw [hmap, hmax2] at hq1
    rw [List.find?_cons_of_pos] at hq1
    · exact (Option.some.inj hq1).symm
    · simpa using hsim
  rw [hq2, hqv]
